import Mathlib

/-
Verification of the MCP stdio client subsystem (package internal/mcp:
stdio.go, client.go, types.go) of the mcp-registry repository.

Modelling conventions:
- Go strings are modelled as lists of characters (`Str`), so that every
  string operation the code uses (TrimSpace, ToLower, HasPrefix,
  TrimPrefix, Split on newline, Contains, lexicographic comparison)
  is an executable Lean function that the kernel can evaluate.
- Go maps (map[string]any) are modelled as association lists; map
  lookup is first-match lookup.
- JSON values decoded into Go's `any` are modelled by the inductive
  type `JValue`; a failed Go type assertion v.(map[string]any) is a
  runtime panic, modelled by `Option` with `none` as the panic.
- External effects (child process start, image pull, the bytes that
  arrive on the child's stdout, context cancellation) are inputs to
  the modelled functions.
-/

namespace McpReg

/-- Go strings, modelled as lists of characters. -/
abbrev Str := List Char

/-- ASCII whitespace, the fragment of Go's unicode.IsSpace the code relies on. -/
def isSpc (c : Char) : Bool :=
  c == ' ' || c == '\t' || c == '\n' || c == '\r' || c == '\x0b' || c == '\x0c'

/-- Go strings.TrimSpace. -/
def trimStr (s : Str) : Str :=
  ((s.dropWhile isSpc).reverse.dropWhile isSpc).reverse

/-- Lower-casing of one ASCII character (fragment of Go strings.ToLower). -/
def lowerChar (c : Char) : Char :=
  if 'A' ≤ c ∧ c ≤ 'Z' then Char.ofNat (c.toNat + 32) else c

/-- Go strings.ToLower. -/
def lowerStr (s : Str) : Str :=
  s.map lowerChar

/-- Go strings.TrimPrefix: drop p from the front of s when it is present. -/
def dropPre (s p : Str) : Str :=
  if p.isPrefixOf s then s.drop p.length else s

/-- Go strings.Contains. -/
def hasSub : Str → Str → Bool
  | [], sub => sub.isEmpty
  | c :: t, sub => sub.isPrefixOf (c :: t) || hasSub t sub

/-- Go strings.Split(s, "\n") (also strings.SplitSeq over newline). -/
def splitLines : Str → List Str
  | [] => [[]]
  | c :: cs =>
    match splitLines cs with
    | [] => [[]]
    | l :: ls => if c = '\n' then [] :: l :: ls else (c :: l) :: ls

/-- Go strings.Join(lines, "\n"). -/
def joinLines : List Str → Str
  | [] => []
  | [l] => l
  | l :: l2 :: ls => l ++ '\n' :: joinLines (l2 :: ls)

/-- Go bytewise lexicographic string order (the order used by sort.Strings and
by comparing two strings with the < and ≤ operators). -/
def lexLe : Str → Str → Bool
  | [], _ => true
  | _ :: _, [] => false
  | a :: as, b :: bs =>
    if a.toNat < b.toNat then true
    else if b.toNat < a.toNat then false
    else lexLe as bs

/-- Go sort.Strings (any sorting algorithm; the result is the ascending
reordering, here realised by insertion sort). -/
def sortStrings (l : List Str) : List Str :=
  List.insertionSort (fun a b => lexLe a b = true) l

/-- Go slices.Contains on a list of strings. -/
def containsStr : List Str → Str → Bool
  | [], _ => false
  | x :: rest, s => if x = s then true else containsStr rest s

/-- JSON values decoded into Go's `any` by encoding/json: JSON null becomes a
nil interface, objects become map[string]any (association list here). -/
inductive JValue where
  | null : JValue
  | bool (b : Bool) : JValue
  | num (n : Int) : JValue
  | str (s : Str) : JValue
  | arr (elems : List JValue) : JValue
  | obj (fields : List (Str × JValue)) : JValue

/-- Whether a decoded JSON value is an object (a Go map[string]any), i.e.
whether the type assertion v.(map[string]any) succeeds. -/
def JValue.isObj : JValue → Bool
  | JValue.obj _ => true
  | _ => false

/-- Go map lookup m[k] on a map[string]any modelled as an association list. -/
def propsLookup : List (Str × JValue) → Str → Option JValue
  | [], _ => none
  | (k, v) :: rest, name => if name = k then some v else propsLookup rest name

/-- types.go: Items. The Go field is named Type; Lean reserves that word, so
the field is `type`. -/
structure Items where
  type : Str
deriving DecidableEq

/-- types.go: ToolArgument (field Type is `type`, field Items is `items`). -/
structure ToolArgument where
  Name : Str
  type : Str
  items : Option Items
  Description : Str
  Optional : Bool
deriving DecidableEq

/-- types.go: ToolAnnotations (the normalized output shape). -/
structure ToolAnnotations where
  Title : Str
  ReadOnlyHint : Bool
  DestructiveHint : Bool
  IdempotentHint : Bool
  OpenWorldHint : Bool
deriving DecidableEq

/-- types.go: Tool (the normalized output shape). -/
structure Tool where
  Name : Str
  Description : Str
  Arguments : List ToolArgument
  Annotations : Option ToolAnnotations
deriving DecidableEq

/-- mcp-go's hint structure on a raw tool (mcp.ToolAnnotation of package
github.com/mark3labs/mcp-go/mcp), whose zero value is compared against. -/
structure RawHints where
  Title : Str
  ReadOnlyHint : Bool
  DestructiveHint : Bool
  IdempotentHint : Bool
  OpenWorldHint : Bool
deriving DecidableEq

/-- The zero value of mcp.ToolAnnotation. -/
def RawHints.zero : RawHints :=
  { Title := [], ReadOnlyHint := false, DestructiveHint := false,
    IdempotentHint := false, OpenWorldHint := false }

/-- mcp-go's raw input schema (mcp.ToolInputSchema): Properties is a
map[string]any, Required a string slice. -/
structure InputSchema where
  Properties : List (Str × JValue)
  Required : List Str

/-- mcp-go's raw tool (mcp.Tool) as consumed by the normalizer. -/
structure RawTool where
  Name : Str
  Description : Str
  InputSchema : InputSchema
  Annotations : RawHints

/-- stdio.go extractDescription, after the input has been split into lines:
trim each line, lower-case it, and on the first line that starts with
name+":" return the trimmed remainder of the original trimmed line. -/
def extractDescriptionLines (name : Str) : List Str → Str
  | [] => []
  | line :: rest =>
    let t := trimStr line
    if (name ++ [':']).isPrefixOf (lowerStr t) then
      trimStr (dropPre t (name ++ [':']))
    else
      extractDescriptionLines name rest

/-- stdio.go extractDescription(input, name). -/
def extractDescription (input name : Str) : Str :=
  extractDescriptionLines name (splitLines input)

/-- Go fmt.Sprintf("%s", v) on a decoded JSON value that is neither nil nor a
string. The claims never exercise this branch; the rendering of the
non-string scalar cases follows fmt's %!s verb-error shape only in spirit. -/
def fmtAny : JValue → Str
  | JValue.null => "<nil>".data
  | JValue.bool b => if b then "%!s(bool=true)".data else "%!s(bool=false)".data
  | JValue.num _ => "%!s(int)".data
  | JValue.str s => s
  | JValue.arr _ => "[...]".data
  | JValue.obj _ => "map[...]".data

/-- stdio.go argumentDescription(name, description, toolDescription):
description is the raw "description" property (Go `any`); nil and the empty
string fall back to scanning the tool description. -/
def argumentDescription (name : Str) (description : Option JValue)
    (toolDescription : Str) : Str :=
  match description with
  | none => extractDescription toolDescription name
  | some JValue.null => extractDescription toolDescription name
  | some (JValue.str s) =>
    if s = [] then extractDescription toolDescription name else s
  | some v => fmtAny v

/-- stdio.go removeArgs, line phase: keep lines up to (excluding) the first
line whose trimmed lower-cased form starts with "args:"; blank lines are
replaced by empty lines. -/
def removeArgsLines : List Str → List Str
  | [] => []
  | line :: rest =>
    if ("args:".data).isPrefixOf (lowerStr (trimStr line)) then []
    else if trimStr line = [] then [] :: removeArgsLines rest
    else line :: removeArgsLines rest

/-- stdio.go removeArgs(input). -/
def removeArgs (input : Str) : Str :=
  trimStr (joinLines (removeArgsLines (splitLines input)))

/-- stdio.go Tools, per-property type resolution: rawType := v["type"]; only a
non-empty JSON string overrides the "string" default. -/
def argTypeOf (rawType : Option JValue) : Str :=
  match rawType with
  | some (JValue.str s) => if s = [] then "string".data else s
  | _ => "string".data

/-- stdio.go Tools, item-type resolution for array-typed properties: the
"items" object's "type" string (any string, including empty) overrides the
"string" default; non-array properties carry no items. -/
def itemsOf (argumentType : Str) (fields : List (Str × JValue)) : Option Items :=
  if argumentType = "array".data then
    some { type :=
      match propsLookup fields "items".data with
      | some (JValue.obj ifields) =>
        match propsLookup ifields "type".data with
        | some (JValue.str s) => s
        | _ => "string".data
      | _ => "string".data }
  else none

/-- stdio.go Tools, body of the per-property loop. The unchecked Go type
assertion v.(map[string]any) panics when the property value is not a JSON
object (including the nil obtained for a name missing from the map); the
panic is modelled as `none`. -/
def normalizeArg (props : List (Str × JValue)) (required : List Str)
    (toolDescription : Str) (name : Str) : Option ToolArgument :=
  match propsLookup props name with
  | some (JValue.obj fields) =>
    let argumentType := argTypeOf (propsLookup fields "type".data)
    some {
      Name := name
      type := argumentType
      items := itemsOf argumentType fields
      Description := argumentDescription name (propsLookup fields "description".data) toolDescription
      Optional := !(containsStr required name) }
  | _ => none

/-- stdio.go Tools, property-name ordering: partition the schema's property
names into required and optional, sort each group, required first. -/
def argOrder (props : List (Str × JValue)) (required : List Str) : List Str :=
  let part := (props.map Prod.fst).partition (fun name => containsStr required name)
  sortStrings part.1 ++ sortStrings part.2

/-- Sequencing of a loop whose body may panic: the first `none` aborts the
whole computation (Go panics unwind Tools entirely). -/
def mapOpt (f : α → Option β) : List α → Option (List β)
  | [] => some []
  | x :: xs =>
    match f x with
    | none => none
    | some y =>
      match mapOpt f xs with
      | none => none
      | some ys => some (y :: ys)

/-- stdio.go Tools, body of the per-tool loop: build the ordered argument
list, strip the Args: block from the description, and carry the hints over
when they are not the zero value. -/
def normalizeTool (tool : RawTool) : Option Tool :=
  match mapOpt
      (normalizeArg tool.InputSchema.Properties tool.InputSchema.Required tool.Description)
      (argOrder tool.InputSchema.Properties tool.InputSchema.Required) with
  | none => none
  | some arguments =>
    some {
      Name := tool.Name
      Description := removeArgs tool.Description
      Arguments := arguments
      Annotations :=
        if tool.Annotations = RawHints.zero then none
        else some {
          Title := tool.Annotations.Title
          ReadOnlyHint := tool.Annotations.ReadOnlyHint
          DestructiveHint := tool.Annotations.DestructiveHint
          IdempotentHint := tool.Annotations.IdempotentHint
          OpenWorldHint := tool.Annotations.OpenWorldHint } }

/-- stdio.go Tools, tool ordering: sort.Slice by Name. -/
def sortTools (tools : List RawTool) : List RawTool :=
  List.insertionSort (fun t u => lexLe t.Name u.Name = true) tools

/-- stdio.go Tools, normalization phase (after the raw list has been fetched
from the live server): sort the tools by name, then normalize each. -/
def Tools (tools : List RawTool) : Option (List Tool) :=
  mapOpt normalizeTool (sortTools tools)

/-
Stdio transport (stdio.go): request-id allocation, the pending-response
map (sync.Map), the background dispatch loop readResponses, and the two
ways a sendRequest caller's wait can end.
-/

/-- types.go: RPCResponse, the value delivered through a pending caller's
response channel. -/
structure RPCResponse where
  Error : Option Str
  Response : Option Str
deriving DecidableEq

/-- types.go: the error member of BaseMessage. -/
structure RPCError where
  Code : Int
  Message : Str
deriving DecidableEq

/-- types.go: BaseMessage, the decoded inbound JSON-RPC envelope. -/
structure BaseMessage where
  JSONRPC : Str
  ID : Option Int
  Method : Str
  Result : Str
  Error : Option RPCError
deriving DecidableEq

/-- The pending-request mapping c.responses (a sync.Map from request id to a
response channel); channels are identified by a slot number. -/
abbrev Pending := List (Int × Nat)

/-- sync.Map.LoadAndDelete: return the entry for the key, removing it. -/
def loadAndDelete : Pending → Int → Option Nat × Pending
  | [], _ => (none, [])
  | (k, v) :: rest, id =>
    if k = id then (some v, rest)
    else ((loadAndDelete rest id).1, (k, v) :: (loadAndDelete rest id).2)

/-- State observed by the dispatch loop: the pending mapping plus the
responses already delivered into channels (slot, payload). -/
structure DispatchState where
  responses : Pending
  delivered : List (Nat × RPCResponse)
deriving DecidableEq

/-- stdio.go readResponses, one iteration of the for loop on one inbound
line. A line that fails to unmarshal is `none` and is skipped; a message
without an id is skipped; an id found in the pending mapping is removed
from it (LoadAndDelete) and its error or result payload delivered. -/
def readStep (st : DispatchState) (line : Option BaseMessage) : DispatchState :=
  match line with
  | none => st
  | some m =>
    match m.ID with
    | none => st
    | some id =>
      match loadAndDelete st.responses id with
      | (none, _) => st
      | (some slot, rest) =>
        match m.Error with
        | some e =>
          { responses := rest,
            delivered := st.delivered ++ [(slot, { Error := some e.Message, Response := none })] }
        | none =>
          { responses := rest,
            delivered := st.delivered ++ [(slot, { Error := none, Response := some m.Result })] }

/-- stdio.go readResponses: the dispatch loop run over the whole inbound
stream. When the stream ends (ReadBytes fails because the child process
exited or the pipe closed) the loop returns the read error at once,
performing no further action on the remaining state. -/
def readResponses (lines : List (Option BaseMessage)) (st : DispatchState) : DispatchState :=
  lines.foldl readStep st

/-- Mutable transport state touched by sendRequest: the id counter, the
pending mapping, and the requests encoded to the child's stdin
(method, id). -/
structure TransportState where
  requestID : Int
  responses : Pending
  writes : List (Str × Int)
deriving DecidableEq

/-- stdio.go sendRequest, first half: allocate the next request id, register
a fresh single-slot channel under it, and encode the request to stdin. -/
def sendRequestRegister (st : TransportState) (slot : Nat) (method : Str) :
    TransportState × Int :=
  let id := st.requestID + 1
  ({ requestID := id,
     responses := st.responses ++ [(id, slot)],
     writes := st.writes ++ [(method, id)] }, id)

/-- The three ways the select at the end of sendRequest can stand at any
instant: a response has been delivered to this caller's channel, the
caller's context is done, or neither (the caller remains blocked). -/
inductive WaitOutcome where
  | response (r : RPCResponse) : WaitOutcome
  | cancelled : WaitOutcome
  | blocked : WaitOutcome
deriving DecidableEq

/-- stdio.go sendRequest, the select: receive from the response channel if a
response was delivered to this caller's slot; otherwise return ctx.Err() if
the context is done; otherwise stay blocked. -/
def sendRequestWait (delivered : List (Nat × RPCResponse)) (slot : Nat)
    (ctxDone : Bool) : WaitOutcome :=
  match delivered.lookup slot with
  | some r => WaitOutcome.response r
  | none => if ctxDone then WaitOutcome.cancelled else WaitOutcome.blocked

/-- stdio.go sendRequest, the ctx.Done() branch of the select: return
ctx.Err() to the caller. The branch performs no other action; in particular
it does not touch c.responses. -/
def sendRequestOnCancel (st : TransportState) : TransportState × Except Str (Option Str) :=
  (st, Except.error "context canceled".data)

/-
Session handshake (stdio.go Initialize) and the Session operations
(client.go).
-/

/-- Observable side effects of Initialize: starting the child process
(cmd.Start) and writing a request or notification to its stdin. -/
inductive InitEvent where
  | spawn : InitEvent
  | write (method : Str) : InitEvent
deriving DecidableEq

/-- stdio.go Initialize on the stdio client, with its external outcomes as
inputs: whether the pipes could be created, whether cmd.Start succeeded,
and whether the initialize request/response exchange succeeded (with the
error text surfaced when it did not). Returns the call result, the emitted
events, and the new value of the initialized flag. The already-initialized
guard is checked before anything else. -/
def InitializeT (initialized : Bool) (pipesOk startOk handshakeOk : Bool)
    (handshakeErr : Str) : Except Str Unit × List InitEvent × Bool :=
  if initialized then
    (Except.error "client already initialized".data, [], initialized)
  else if pipesOk = false then
    (Except.error "failed to create stdin pipe".data, [], false)
  else if startOk = false then
    (Except.error "failed to start command".data, [], false)
  else if handshakeOk then
    (Except.ok (),
     [InitEvent.spawn, InitEvent.write "initialize".data,
      InitEvent.write "notifications/initialized".data], true)
  else
    (Except.error handshakeErr,
     [InitEvent.spawn, InitEvent.write "initialize".data], false)

/-- The Session's reference to its stdio transport (client.c): present once
Start has installed it, carrying the initialized flag. -/
structure TransportRef where
  initialized : Bool
deriving DecidableEq

/-- client.go: the client (Session) state the claims touch: image identity,
pull policy, and the transport reference (nil until installed). -/
structure Client where
  image : Str
  pull : Bool
  c : Option TransportRef
deriving DecidableEq

/-- client.go Start, with external outcomes as inputs. The guard on an
existing transport comes first; a required pull that fails returns before
any transport is created; otherwise the stdio client is constructed and
installed on the Session (cl.c = c) and only then is Initialize called,
which is what actually starts the child process. -/
def Start (cl : Client) (pullOk pipesOk startOk handshakeOk : Bool)
    (pullErr handshakeErr : Str) : Except Str Unit × Client :=
  if cl.c.isSome then
    (Except.error ("already started ".data ++ cl.image), cl)
  else if cl.pull && !pullOk then
    (Except.error ("pulling image ".data ++ cl.image ++ ": ".data ++ pullErr), cl)
  else
    let cl1 : Client := { cl with c := some { initialized := false } }
    match InitializeT false pipesOk startOk handshakeOk handshakeErr with
    | (Except.error e, _, flag) =>
      (Except.error ("initializing ".data ++ cl.image ++ ": ".data ++ e),
       { cl1 with c := some { initialized := flag } })
    | (Except.ok _, _, flag) =>
      (Except.ok (), { cl1 with c := some { initialized := flag } })

/-- A request issued on the wire by a Session operation: the JSON-RPC method
and the arguments object (only tools/call carries one here). -/
structure WireCall where
  method : Str
  arguments : List (Str × JValue)

/-- client.go ListTools: guard on cl.c being nil, then issue tools/list. -/
def ListTools (cl : Client) : Except Str WireCall :=
  match cl.c with
  | none => Except.error ("listing tools ".data ++ cl.image ++ ": not started".data)
  | some _ => Except.ok { method := "tools/list".data, arguments := [] }

/-- client.go ListPrompts: guard on cl.c being nil (its message also says
"listing tools", as in the source), then issue prompts/list. -/
def ListPrompts (cl : Client) : Except Str WireCall :=
  match cl.c with
  | none => Except.error ("listing tools ".data ++ cl.image ++ ": not started".data)
  | some _ => Except.ok { method := "prompts/list".data, arguments := [] }

/-- client.go CallTool: guard on cl.c being nil; a nil arguments map becomes
an empty one; an empty arguments object gets the single placeholder
argument "args" = "..." before the request is issued. -/
def CallTool (cl : Client) (name : Str) (args : Option (List (Str × JValue))) :
    Except Str WireCall :=
  match cl.c with
  | none => Except.error ("calling tool ".data ++ name ++ ": not started".data)
  | some _ =>
    let args0 : List (Str × JValue) := match args with
      | none => []
      | some m => m
    let args1 := if args0.length = 0
      then args0 ++ [("args".data, JValue.str "...".data)]
      else args0
    Except.ok { method := "tools/call".data, arguments := args1 }

/-- Whether a Session operation outcome is the NotStarted usage error (the
source formats it as "...: not started"). -/
def isNotStartedErr : Except Str WireCall → Bool
  | Except.error e => (": not started".data).isSuffixOf e
  | Except.ok _ => false

/-
Requirement orchestrator (stdio.go runRequirement): sidecar startup and
readiness polling.
-/

/-- The readiness marker runRequirement scans the sidecar's stdout for. -/
def startedMarker : Str := "Started.".data

/-- stdio.go runRequirement, the waitStarted loop. Time is discretised into
the loop's own 100 ms polling ticks: at the k-th poll the buffer holds
logAt k, and time.Since(start) is 100·k milliseconds. Each iteration first
checks the buffer for the marker and only then gives up once the elapsed
time exceeds 30 seconds. Returns whether the sidecar started and the index
of the last poll performed. -/
def pollLoop (logAt : Nat → Str) (k : Nat) : Bool × Nat :=
  let k1 := k + 1
  if hasSub (logAt k1) startedMarker then (true, k1)
  else if 100 * k1 > 30000 then (false, k1)
  else pollLoop logAt k1
termination_by 301 - k
decreasing_by
  simp_wf
  omega

/-- stdio.go runRequirement, with external outcomes as inputs (pull and
start results, the sidecar's buffered stdout at each polling tick, and the
random container-name suffix). On success it returns the container name
and the environment the main server needs; on a readiness timeout the
buffered log is embedded in the error. -/
def runRequirement (requirement : Str) (pullOk startOk : Bool)
    (pullErr startErr : Str) (logAt : Nat → Str) (rand8 : Str) :
    Except Str (Str × List Str) :=
  if requirement ≠ "neo4j".data then
    Except.error ("unsupported requirement: ".data ++ requirement)
  else if pullOk = false then
    Except.error ("failed to pull Neo4j: ".data ++ pullErr)
  else if startOk = false then
    Except.error startErr
  else
    match pollLoop logAt 0 with
    | (true, _) =>
      Except.ok ("neo4j-".data ++ rand8, ["NEO4J_URL=bolt://localhost:7687".data])
    | (false, k) =>
      Except.error ("failed to start Neo4j: [".data ++ logAt k ++ "]".data)

/-
Helper lemmas.
-/

/-- Removing a freshly appended id from the pending mapping returns its slot
and restores the previous mapping, provided the id was not already present. -/
theorem loadAndDelete_append_fresh (m : Pending) (id : Int) (slot : Nat)
    (h : (loadAndDelete m id).1 = none) :
    loadAndDelete (m ++ [(id, slot)]) id = (some slot, m) := by
  induction m with
  | nil => simp [loadAndDelete]
  | cons p rest ih =>
    obtain ⟨k, v⟩ := p
    by_cases hk : k = id
    · simp [loadAndDelete, hk] at h
    · simp only [loadAndDelete, if_neg hk] at h
      simp only [List.cons_append, loadAndDelete, if_neg hk, List.append_eq]
      rw [ih h]

/-- A string is a suffix of anything it is appended to on the right,
through the executable isSuffixOf check. -/
theorem isSuffixOf_append_self (a b s : Str) :
    s.isSuffixOf (a ++ b ++ s) = true := by
  simp [List.isSuffixOf, List.isPrefixOf_iff_prefix]

/-
Claim theorems.
-/

/-- C1: the spec requires that when the dispatch loop observes end-of-stream
(the child process exited), every pending sendRequest caller is released
with a "transport closed" error within a bounded time. The code's dispatch
loop merely returns the read error: run over an ended stream with request
ids 1 and 2 pending (slots 10 and 20), it delivers nothing, both entries
remain in the mapping, and a caller whose own context is not done remains
blocked — no transport-closed release exists. -/
theorem c1_process_exit_leaves_pending_blocked :
    readResponses [] { responses := [(1, 10), (2, 20)], delivered := [] } =
      { responses := [(1, 10), (2, 20)], delivered := [] } ∧
    sendRequestWait
      (readResponses [] { responses := [(1, 10), (2, 20)], delivered := [] }).delivered
      10 false = WaitOutcome.blocked ∧
    sendRequestWait
      (readResponses [] { responses := [(1, 10), (2, 20)], delivered := [] }).delivered
      20 false = WaitOutcome.blocked :=
  ⟨rfl, rfl, rfl⟩

/-- C2 counterexample: register request id 1 (slot 10, method tools/list) on a
fresh transport and let the caller's context cancel before any response is
delivered. sendRequest returns the cancellation error, but the pending
mapping still contains id 1 — the cancelled caller does not remove its
entry, refuting the claim that it deregisters its slot. -/
theorem c2_cancel_leaves_entry_counterexample :
    (sendRequestOnCancel (sendRequestRegister ⟨0, [], []⟩ 10 "tools/list".data).1).2 =
      Except.error "context canceled".data ∧
    (loadAndDelete
      (sendRequestOnCancel (sendRequestRegister ⟨0, [], []⟩ 10 "tools/list".data).1).1.responses
      1).1 = some 10 ∧
    (loadAndDelete
      (sendRequestOnCancel (sendRequestRegister ⟨0, [], []⟩ 10 "tools/list".data).1).1.responses
      1).1 ≠ none :=
  ⟨rfl, rfl, by decide⟩

/-- C2 (amended): when the governing context of a sendRequest call is
cancelled before a matching response arrives, sendRequest returns a
cancellation error but does not deregister its entry: the cancellation
branch leaves the transport state untouched, so the registered id is still
in the pending mapping; the entry is removed only if the dispatch loop
later receives a response bearing that id, which removes exactly that entry
and fulfills the abandoned slot harmlessly. -/
theorem c2_cancel_no_deregister (st : TransportState) (slot : Nat) (method : Str)
    (hfresh : (loadAndDelete st.responses (st.requestID + 1)).1 = none) :
    (sendRequestOnCancel (sendRequestRegister st slot method).1).2 =
      Except.error "context canceled".data ∧
    (sendRequestOnCancel (sendRequestRegister st slot method).1).1 =
      (sendRequestRegister st slot method).1 ∧
    (loadAndDelete (sendRequestRegister st slot method).1.responses
      (sendRequestRegister st slot method).2).1 = some slot ∧
    (∀ j mth res d, readStep
        { responses := (sendRequestRegister st slot method).1.responses, delivered := d }
        (some { JSONRPC := j, ID := some (sendRequestRegister st slot method).2,
                Method := mth, Result := res, Error := none }) =
      { responses := st.responses,
        delivered := d ++ [(slot, { Error := none, Response := some res })] }) := by
  refine ⟨rfl, rfl, ?_, ?_⟩
  · show (loadAndDelete (st.responses ++ [(st.requestID + 1, slot)]) (st.requestID + 1)).1 = some slot
    rw [loadAndDelete_append_fresh _ _ _ hfresh]
  · intro j mth res d
    show readStep _ _ = _
    simp only [readStep, sendRequestRegister]
    rw [loadAndDelete_append_fresh _ _ _ hfresh]

/-- C2 witness: the amended behavior at a fresh transport (counter 0, empty
mapping): after registering id 1 in slot 10, cancellation returns the
cancellation error and leaves id 1 registered. -/
theorem c2_cancel_no_deregister_witness :
    (sendRequestOnCancel (sendRequestRegister ⟨0, [], []⟩ 10 "tools/list".data).1).2 =
      Except.error "context canceled".data ∧
    (loadAndDelete (sendRequestRegister ⟨0, [], []⟩ 10 "tools/list".data).1.responses
      (sendRequestRegister ⟨0, [], []⟩ 10 "tools/list".data).2).1 = some 10 :=
  ⟨(c2_cancel_no_deregister ⟨0, [], []⟩ 10 "tools/list".data rfl).1,
   (c2_cancel_no_deregister ⟨0, [], []⟩ 10 "tools/list".data rfl).2.2.1⟩

/-- C4 counterexample: Start on a fresh Session whose handshake fails leaves
cl.c installed, so Initialize did not succeed on this Session; yet
ListTools, ListPrompts and CallTool do not fail with NotStarted — ListTools
issues its request — refuting the claim that they fail with NotStarted
whenever invoked before Initialize has succeeded. -/
theorem c4_after_failed_handshake_counterexample :
    (Start ⟨"img".data, false, none⟩ true true true false [] "boom".data).1 =
      Except.error "initializing img: boom".data ∧
    (Start ⟨"img".data, false, none⟩ true true true false [] "boom".data).2.c =
      some ⟨false⟩ ∧
    isNotStartedErr
      (ListTools (Start ⟨"img".data, false, none⟩ true true true false [] "boom".data).2) =
      false ∧
    isNotStartedErr
      (ListPrompts (Start ⟨"img".data, false, none⟩ true true true false [] "boom".data).2) =
      false ∧
    isNotStartedErr
      (CallTool (Start ⟨"img".data, false, none⟩ true true true false [] "boom".data).2
        "t".data none) = false ∧
    ListTools (Start ⟨"img".data, false, none⟩ true true true false [] "boom".data).2 =
      Except.ok { method := "tools/list".data, arguments := [] } :=
  ⟨rfl, rfl, rfl, rfl, rfl, rfl⟩

/-- C4 (amended): ListTools, ListPrompts and CallTool fail with NotStarted
exactly when invoked before Start has installed a Transport on the Session
(cl.c is nil); once a Transport is installed — even by a Start whose
handshake failed, so Initialize never succeeded — they do not fail with
NotStarted but issue their request. -/
theorem c4_not_started_guard (cl : Client) :
    (cl.c = none →
      isNotStartedErr (ListTools cl) = true ∧
      isNotStartedErr (ListPrompts cl) = true ∧
      ∀ name args, isNotStartedErr (CallTool cl name args) = true) ∧
    (∀ t, cl.c = some t →
      isNotStartedErr (ListTools cl) = false ∧
      isNotStartedErr (ListPrompts cl) = false ∧
      ∀ name args, isNotStartedErr (CallTool cl name args) = false) := by
  constructor
  · intro h
    refine ⟨?_, ?_, ?_⟩
    · simp only [ListTools, h, isNotStartedErr]
      exact isSuffixOf_append_self _ _ _
    · simp only [ListPrompts, h, isNotStartedErr]
      exact isSuffixOf_append_self _ _ _
    · intro name args
      simp only [CallTool, h, isNotStartedErr]
      exact isSuffixOf_append_self _ _ _
  · intro t h
    refine ⟨?_, ?_, ?_⟩
    · simp [ListTools, h, isNotStartedErr]
    · simp [ListPrompts, h, isNotStartedErr]
    · intro name args
      simp [CallTool, h, isNotStartedErr]

/-- C4 witness: the guard at concrete Sessions — not started yields the
NotStarted error, started (even uninitialized) does not. -/
theorem c4_not_started_guard_witness :
    isNotStartedErr (ListTools ⟨"img".data, false, none⟩) = true ∧
    isNotStartedErr (ListTools ⟨"img".data, false, some ⟨false⟩⟩) = false :=
  ⟨((c4_not_started_guard ⟨"img".data, false, none⟩).1 rfl).1,
   ((c4_not_started_guard ⟨"img".data, false, some ⟨false⟩⟩).2 ⟨false⟩ rfl).1⟩

/-- C5 counterexample: Start on a fresh pulling Session whose image pull
succeeds but whose child process fails to start (cmd.Start error) returns
an error, yet leaves the Session with a Transport installed (cl.c set, the
stdio client created before Initialize was called) — refuting the claim
that no Transport is installed until the child process has actually
started. -/
theorem c5_transport_installed_before_start_counterexample :
    (Start ⟨"img".data, true, none⟩ true true false true "p".data "h".data).1 =
      Except.error "initializing img: failed to start command".data ∧
    (Start ⟨"img".data, true, none⟩ true true false true "p".data "h".data).2.c =
      some ⟨false⟩ :=
  ⟨rfl, rfl⟩

/-- C5 (amended): an image pull failure aborts Start before any transport is
created, leaving the Session unchanged; but the stdio client is installed on
the Session before Initialize runs, i.e. before the child process is
started, so a process-start failure leaves the Session with a Transport
installed (initialized flag false), and a subsequent Start on that Session
fails with AlreadyStarted. -/
theorem c5_start_failure_state (cl : Client) (handshakeOk : Bool)
    (pullErr pullErr2 handshakeErr : Str) (h : cl.c = none) :
    (cl.pull = true →
      Start cl false true true handshakeOk pullErr handshakeErr =
        (Except.error ("pulling image ".data ++ cl.image ++ ": ".data ++ pullErr), cl)) ∧
    (Start cl true true false handshakeOk pullErr handshakeErr).1 =
      Except.error ("initializing ".data ++ cl.image ++ ": ".data ++
        "failed to start command".data) ∧
    (Start cl true true false handshakeOk pullErr handshakeErr).2.c = some ⟨false⟩ ∧
    (Start (Start cl true true false handshakeOk pullErr handshakeErr).2
        true true true true pullErr2 handshakeErr).1 =
      Except.error ("already started ".data ++ cl.image) := by
  refine ⟨?_, ?_, ?_, ?_⟩
  · intro hp
    simp [Start, h, hp]
  · simp [Start, h, InitializeT]
  · simp [Start, h, InitializeT]
  · simp [Start, h, InitializeT]

/-- C5 witness: the amended behavior at a concrete fresh Session. -/
theorem c5_start_failure_state_witness :
    Start ⟨"img".data, true, none⟩ false true true true "pe".data "he".data =
      (Except.error ("pulling image ".data ++ "img".data ++ ": ".data ++ "pe".data),
       ⟨"img".data, true, none⟩) ∧
    (Start ⟨"img".data, true, none⟩ true true false true "pe".data "he".data).2.c =
      some ⟨false⟩ :=
  ⟨(c5_start_failure_state ⟨"img".data, true, none⟩ true "pe".data "x".data "he".data rfl).1 rfl,
   (c5_start_failure_state ⟨"img".data, true, none⟩ true "pe".data "x".data "he".data rfl).2.2.1⟩

/-- C6: Initialize called on an already-initialized Session fails with
AlreadyInitialized immediately: whatever the external outcomes would have
been, the result is the "client already initialized" error, no event is
emitted (no process spawn, no byte written to the wire), and the
initialized flag is unchanged. -/
theorem c6_already_initialized (pipesOk startOk handshakeOk : Bool) (handshakeErr : Str) :
    InitializeT true pipesOk startOk handshakeOk handshakeErr =
      (Except.error "client already initialized".data, [], true) :=
  rfl

/-- C9: on a started Session, CallTool with a nil or empty arguments map
injects exactly the single placeholder argument "args" = "..." into the
request, so the wire request carries a non-empty arguments object; a
non-empty caller-supplied arguments map is sent unchanged. -/
theorem c9_calltool_placeholder (cl : Client) (t : TransportRef) (name : Str)
    (args : Option (List (Str × JValue))) (h : cl.c = some t) :
    ((args = none ∨ args = some []) →
      CallTool cl name args =
        Except.ok { method := "tools/call".data,
                    arguments := [("args".data, JValue.str "...".data)] }) ∧
    (∀ m, args = some m → m ≠ [] →
      CallTool cl name args =
        Except.ok { method := "tools/call".data, arguments := m }) := by
  constructor
  · rintro (rfl | rfl) <;> simp [CallTool, h]
  · rintro m rfl hm
    simp [CallTool, h, List.length_eq_zero, hm]

/-- C9 witness: CallTool at a started Session with nil arguments carries the
lone placeholder; with one real argument it is sent unchanged. -/
theorem c9_calltool_placeholder_witness :
    CallTool ⟨"img".data, false, some ⟨true⟩⟩ "t".data none =
      Except.ok { method := "tools/call".data,
                  arguments := [("args".data, JValue.str "...".data)] } ∧
    CallTool ⟨"img".data, false, some ⟨true⟩⟩ "t".data (some [("x".data, JValue.num 1)]) =
      Except.ok { method := "tools/call".data, arguments := [("x".data, JValue.num 1)] } :=
  ⟨(c9_calltool_placeholder ⟨"img".data, false, some ⟨true⟩⟩ ⟨true⟩ "t".data none rfl).1
      (Or.inl rfl),
   (c9_calltool_placeholder ⟨"img".data, false, some ⟨true⟩⟩ ⟨true⟩ "t".data
      (some [("x".data, JValue.num 1)]) rfl).2 [("x".data, JValue.num 1)] rfl (by simp)⟩

/-- The readiness poll loop, when the marker never appears in the buffer,
runs to the first tick past the 30-second ceiling: from any start index
k ≤ 300 it returns not-started at poll index 301. -/
theorem pollLoop_never (logAt : Nat → Str)
    (hnever : ∀ j, hasSub (logAt j) startedMarker = false) :
    ∀ n k, 300 - k = n → k ≤ 300 → pollLoop logAt k = (false, 301) := by
  intro n
  induction n with
  | zero =>
    intro k h0 hk
    have hke : k = 300 := by omega
    subst hke
    rw [pollLoop.eq_def]
    simp [hnever]
  | succ n ih =>
    intro k h0 hk
    have hk9 : k ≤ 299 := by omega
    rw [pollLoop.eq_def]
    simp only [hnever, Bool.false_eq_true, if_false]
    rw [if_neg (by omega)]
    exact ih (k + 1) (by omega) (by omega)

/-- C8: for a requirement sidecar whose captured stdout never contains the
readiness marker, runRequirement polls the buffer at its fixed 100 ms tick,
gives up at the first poll past the fixed 30-second ceiling — poll number
301, i.e. after 30.1 seconds: later than 30 s, not indefinitely — and fails
with the buffered log embedded in the error; any requirement name other
than the single supported one fails fast with the unsupported-requirement
error. -/
theorem c8_requirement_polling (requirement : Str) (pullOk startOk : Bool)
    (pullErr startErr : Str) (logAt : Nat → Str) (rand8 : Str)
    (hreq : requirement ≠ "neo4j".data)
    (hnever : ∀ j, hasSub (logAt j) startedMarker = false) :
    runRequirement requirement pullOk startOk pullErr startErr logAt rand8 =
      Except.error ("unsupported requirement: ".data ++ requirement) ∧
    runRequirement "neo4j".data true true pullErr startErr logAt rand8 =
      Except.error ("failed to start Neo4j: [".data ++ logAt 301 ++ "]".data) ∧
    pollLoop logAt 0 = (false, 301) ∧
    100 * 301 > 30000 ∧ 100 * 300 ≤ 30000 := by
  have hp : pollLoop logAt 0 = (false, 301) :=
    pollLoop_never logAt hnever 300 0 rfl (by omega)
  refine ⟨?_, ?_, hp, by omega, by omega⟩
  · simp [runRequirement, hreq]
  · simp only [runRequirement]
    rw [if_neg (by simp), if_neg (by simp), if_neg (by simp), hp]

/-- C8 witness: a sidecar whose buffer stays at "starting up" forever times
out with that buffer in the error, and the requirement name "redis" is
rejected as unsupported. -/
theorem c8_requirement_polling_witness :
    runRequirement "redis".data true true "pe".data "se".data
      (fun _ => "starting up".data) "abcdefgh".data =
      Except.error ("unsupported requirement: ".data ++ "redis".data) ∧
    runRequirement "neo4j".data true true "pe".data "se".data
      (fun _ => "starting up".data) "abcdefgh".data =
      Except.error ("failed to start Neo4j: [".data ++ "starting up".data ++ "]".data) :=
  ⟨(c8_requirement_polling "redis".data true true "pe".data "se".data
      (fun _ => "starting up".data) "abcdefgh".data (by decide)
      (fun j => by show hasSub "starting up".data startedMarker = false; decide)).1,
   (c8_requirement_polling "redis".data true true "pe".data "se".data
      (fun _ => "starting up".data) "abcdefgh".data (by decide)
      (fun j => by show hasSub "starting up".data startedMarker = false; decide)).2.1⟩

/-- C7: when an input-schema property carries no declared description (the
raw "description" entry is missing, JSON null, or the empty string), the
normalizer falls back to scanning the tool's free-text description; the
scan returns, for the first line whose trimmed lower-cased form starts
with name+":", the trimmed trailing text of that line; in particular a
tool whose description contains the line "path: the file to read" and
whose path property has no description normalizes path with description
"the file to read". -/
theorem c7_description_from_prose (nm : Str) (desc : Option JValue)
    (toolDesc : Str) (before after : List Str) (line : Str)
    (hnone : desc = none ∨ desc = some JValue.null ∨ desc = some (JValue.str []))
    (hbefore : ∀ l ∈ before, (nm ++ [':']).isPrefixOf (lowerStr (trimStr l)) = false)
    (hline : (nm ++ [':']).isPrefixOf (lowerStr (trimStr line)) = true) :
    argumentDescription nm desc toolDesc = extractDescription toolDesc nm ∧
    extractDescriptionLines nm (before ++ line :: after) =
      trimStr (dropPre (trimStr line) (nm ++ [':'])) ∧
    normalizeArg [("path".data, JValue.obj [])] []
      "Reads a file.\npath: the file to read".data "path".data =
      some { Name := "path".data, type := "string".data, items := none,
             Description := "the file to read".data, Optional := true } := by
  refine ⟨?_, ?_, by decide⟩
  · rcases hnone with rfl | rfl | rfl <;> rfl
  · induction before with
    | nil => simp [extractDescriptionLines, hline]
    | cons b bs ih =>
      have hb := hbefore b (by simp)
      simp only [List.cons_append, extractDescriptionLines, hb, Bool.false_eq_true, if_false]
      exact ih (fun l hl => hbefore l (by simp [hl]))

/-- C7 witness: the scan applied to the two-line description of the claim's
example returns exactly the trailing text. -/
theorem c7_description_from_prose_witness :
    extractDescriptionLines "path".data
      (["Reads a file.".data] ++ "path: the file to read".data :: []) =
      "the file to read".data := by
  have h := (c7_description_from_prose "path".data none []
      ["Reads a file.".data] [] "path: the file to read".data
      (Or.inl rfl) (by decide) (by decide)).2.1
  rw [h]
  decide

/-- Totality of the bytewise lexicographic order. -/
theorem lexLe_total : ∀ a b : Str, lexLe a b = true ∨ lexLe b a = true
  | [], _ => Or.inl rfl
  | _ :: _, [] => Or.inr rfl
  | a :: as, b :: bs => by
    rcases Nat.lt_trichotomy a.toNat b.toNat with h | h | h
    · left; simp [lexLe, h]
    · rcases lexLe_total as bs with ih | ih
      · left; simp [lexLe, h, ih]
      · right; simp [lexLe, h, ih]
    · right; simp [lexLe, h]

/-- Transitivity of the bytewise lexicographic order. -/
theorem lexLe_trans : ∀ a b c : Str,
    lexLe a b = true → lexLe b c = true → lexLe a c = true
  | [], _, _, _, _ => rfl
  | _ :: _, [], _, hab, _ => by simp [lexLe] at hab
  | _ :: _, _ :: _, [], _, hbc => by simp [lexLe] at hbc
  | a :: as, b :: bs, c :: cs, hab, hbc => by
    simp only [lexLe] at hab hbc ⊢
    by_cases h1 : a.toNat < b.toNat
    · by_cases h2 : b.toNat < c.toNat
      · simp [h1.trans h2]
      · by_cases h3 : c.toNat < b.toNat
        · rw [if_neg h2, if_pos h3] at hbc
          exact absurd hbc (by simp)
        · have h5 : a.toNat < c.toNat := by omega
          simp [h5]
    · by_cases h4 : b.toNat < a.toNat
      · rw [if_neg h1, if_pos h4] at hab
        exact absurd hab (by simp)
      · rw [if_neg h1, if_neg h4] at hab
        by_cases h2 : b.toNat < c.toNat
        · have h5 : a.toNat < c.toNat := by omega
          simp [h5]
        · by_cases h3 : c.toNat < b.toNat
          · rw [if_neg h2, if_pos h3] at hbc
            exact absurd hbc (by simp)
          · rw [if_neg h2, if_neg h3] at hbc
            rw [if_neg (show ¬a.toNat < c.toNat by omega),
              if_neg (show ¬c.toNat < a.toNat by omega)]
            exact lexLe_trans as bs cs hab hbc

/-- sort.Strings produces a permutation of its input. -/
theorem sortStrings_perm (l : List Str) : (sortStrings l).Perm l :=
  List.perm_insertionSort _ l

/-- sort.Strings produces an ascending list. -/
theorem sortStrings_sorted (l : List Str) :
    (sortStrings l).Sorted (fun a b => lexLe a b = true) := by
  haveI : IsTotal Str (fun a b => lexLe a b = true) := ⟨lexLe_total⟩
  haveI : IsTrans Str (fun a b => lexLe a b = true) := ⟨lexLe_trans⟩
  exact List.sorted_insertionSort _ l

/-- Sorting the tool list produces a permutation of the input. -/
theorem sortTools_perm (tools : List RawTool) : (sortTools tools).Perm tools :=
  List.perm_insertionSort _ tools

/-- Sorting the tool list produces a list ascending by tool name. -/
theorem sortTools_sorted (tools : List RawTool) :
    (sortTools tools).Sorted (fun t u => lexLe t.Name u.Name = true) := by
  haveI : IsTotal RawTool (fun t u => lexLe t.Name u.Name = true) :=
    ⟨fun t u => lexLe_total t.Name u.Name⟩
  haveI : IsTrans RawTool (fun t u => lexLe t.Name u.Name = true) :=
    ⟨fun t u v => lexLe_trans t.Name u.Name v.Name⟩
  exact List.sorted_insertionSort _ tools

/-- Successful normalization of one tool preserves its name. -/
theorem normalizeTool_name (t : RawTool) (y : Tool)
    (h : normalizeTool t = some y) : y.Name = t.Name := by
  unfold normalizeTool at h
  cases hm : mapOpt
      (normalizeArg t.InputSchema.Properties t.InputSchema.Required t.Description)
      (argOrder t.InputSchema.Properties t.InputSchema.Required) with
  | none => rw [hm] at h; exact absurd h (by simp)
  | some args =>
    rw [hm] at h
    simp only [Option.some_inj] at h
    rw [← h]

/-- A successful mapOpt of normalizeTool preserves the name list. -/
theorem mapOpt_normalizeTool_names (l : List RawTool) (out : List Tool)
    (h : mapOpt normalizeTool l = some out) :
    out.map Tool.Name = l.map RawTool.Name := by
  induction l generalizing out with
  | nil =>
    simp only [mapOpt, Option.some_inj] at h
    rw [← h]
    rfl
  | cons t ts ih =>
    simp only [mapOpt] at h
    cases ht : normalizeTool t with
    | none => rw [ht] at h; exact absurd h (by simp)
    | some y =>
      rw [ht] at h
      cases hts : mapOpt normalizeTool ts with
      | none => rw [hts] at h; exact absurd h (by simp)
      | some ys =>
        rw [hts] at h
        simp only [Option.some_inj] at h
        rw [← h]
        simp [normalizeTool_name t y ht, ih ys hts]

/-- C3: the normalizer sorts tools by name (the sorted list is an ascending
permutation of the raw list, and the normalized output carries exactly the
sorted names); for each tool the argument order is obtained by partitioning
the schema's property names into required and optional, sorting each group,
and concatenating required before optional — the order is a permutation of
the declared property names; in particular the schema
b optional, a required, c required normalizes to arguments a, c, b. -/
theorem c3_normalizer_ordering :
    (∀ tools : List RawTool,
      (sortTools tools).Perm tools ∧
      (sortTools tools).Sorted (fun t u => lexLe t.Name u.Name = true)) ∧
    (∀ (tools : List RawTool) (out : List Tool), Tools tools = some out →
      out.map Tool.Name = (sortTools tools).map RawTool.Name) ∧
    (∀ (props : List (Str × JValue)) (required : List Str),
      argOrder props required =
        sortStrings ((props.map Prod.fst).filter (fun n => containsStr required n)) ++
          sortStrings ((props.map Prod.fst).filter (fun n => !containsStr required n)) ∧
      (argOrder props required).Perm (props.map Prod.fst)) ∧
    (∀ l : List Str,
      (sortStrings l).Perm l ∧ (sortStrings l).Sorted (fun a b => lexLe a b = true)) ∧
    Option.map (fun tl => tl.Arguments.map ToolArgument.Name)
      (normalizeTool
        { Name := "t".data, Description := [],
          InputSchema :=
            { Properties := [("b".data, JValue.obj []), ("a".data, JValue.obj []),
                             ("c".data, JValue.obj [])],
              Required := ["a".data, "c".data] },
          Annotations := RawHints.zero }) =
      some ["a".data, "c".data, "b".data] := by
  refine ⟨fun tools => ⟨sortTools_perm tools, sortTools_sorted tools⟩, ?_, ?_, 
    fun l => ⟨sortStrings_perm l, sortStrings_sorted l⟩, by decide⟩
  · intro tools out h
    exact mapOpt_normalizeTool_names _ _ h
  · intro props required
    constructor
    · simp [argOrder, List.partition_eq_filter_filter, Function.comp_def]
    · have he : argOrder props required =
          sortStrings ((props.map Prod.fst).filter (fun n => containsStr required n)) ++
            sortStrings ((props.map Prod.fst).filter (fun n => !containsStr required n)) := by
        simp [argOrder, List.partition_eq_filter_filter, Function.comp_def]
      rw [he]
      exact ((sortStrings_perm _).append (sortStrings_perm _)).trans
        (List.filter_append_perm _ _)

/-- C3 witness: the normalized name list at a one-tool raw list. -/
theorem c3_normalizer_ordering_witness :
    List.map Tool.Name
      [{ Name := "t".data, Description := [],
         Arguments :=
          [{ Name := "a".data, type := "string".data, items := none,
             Description := [], Optional := false },
           { Name := "c".data, type := "string".data, items := none,
             Description := [], Optional := false },
           { Name := "b".data, type := "string".data, items := none,
             Description := [], Optional := true }],
         Annotations := none }] =
      (sortTools
        [{ Name := "t".data, Description := [],
           InputSchema :=
             { Properties := [("b".data, JValue.obj []), ("a".data, JValue.obj []),
                              ("c".data, JValue.obj [])],
               Required := ["a".data, "c".data] },
           Annotations := RawHints.zero }]).map RawTool.Name :=
  c3_normalizer_ordering.2.1
    [{ Name := "t".data, Description := [],
       InputSchema :=
         { Properties := [("b".data, JValue.obj []), ("a".data, JValue.obj []),
                          ("c".data, JValue.obj [])],
           Required := ["a".data, "c".data] },
       Annotations := RawHints.zero }]
    [{ Name := "t".data, Description := [],
       Arguments :=
        [{ Name := "a".data, type := "string".data, items := none,
           Description := [], Optional := false },
         { Name := "c".data, type := "string".data, items := none,
           Description := [], Optional := false },
         { Name := "b".data, type := "string".data, items := none,
           Description := [], Optional := true }],
       Annotations := none }]
    rfl

/-- A successful map lookup locates an entry of the association list. -/
theorem propsLookup_mem (props : List (Str × JValue)) (name : Str) (v : JValue)
    (h : propsLookup props name = some v) : (name, v) ∈ props := by
  induction props with
  | nil => simp [propsLookup] at h
  | cons p rest ih =>
    obtain ⟨k, w⟩ := p
    by_cases hk : name = k
    · rw [propsLookup, if_pos hk] at h
      simp only [Option.some_inj] at h
      subst hk; subst h
      exact List.mem_cons_self _ _
    · rw [propsLookup, if_neg hk] at h
      exact List.mem_cons_of_mem _ (ih h)

/-- Map lookup succeeds on every name drawn from the map's key list. -/
theorem propsLookup_isSome_of_mem (props : List (Str × JValue)) (name : Str)
    (h : name ∈ props.map Prod.fst) : ∃ v, propsLookup props name = some v := by
  induction props with
  | nil => simp at h
  | cons p rest ih =>
    obtain ⟨k, w⟩ := p
    by_cases hk : name = k
    · exact ⟨w, by rw [propsLookup, if_pos hk]⟩
    · have : name ∈ rest.map Prod.fst := by
        simp only [List.map_cons, List.mem_cons] at h
        exact h.resolve_left hk
      obtain ⟨v, hv⟩ := ih this
      exact ⟨v, by rw [propsLookup, if_neg hk, hv]⟩

/-- The per-property loop body does not panic on a property whose value is a
JSON object and whose name is a key of the properties map. -/
theorem normalizeArg_isSome (props : List (Str × JValue)) (required : List Str)
    (toolDesc name : Str)
    (hobj : ∀ p ∈ props, p.2.isObj = true)
    (hmem : name ∈ props.map Prod.fst) :
    (normalizeArg props required toolDesc name).isSome = true := by
  obtain ⟨v, hv⟩ := propsLookup_isSome_of_mem props name hmem
  have hm := propsLookup_mem props name v hv
  have hvo := hobj (name, v) hm
  cases v with
  | obj fields => simp [normalizeArg, hv]
  | null => simp [JValue.isObj] at hvo
  | bool b => simp [JValue.isObj] at hvo
  | num n => simp [JValue.isObj] at hvo
  | str s2 => simp [JValue.isObj] at hvo
  | arr es => simp [JValue.isObj] at hvo

/-- Every name the ordering phase emits is a key of the properties map. -/
theorem argOrder_subset (props : List (Str × JValue)) (required : List Str) :
    ∀ n ∈ argOrder props required, n ∈ props.map Prod.fst := by
  intro n hn
  simp only [argOrder, List.partition_eq_filter_filter, List.mem_append] at hn
  rcases hn with hn | hn
  · have := (sortStrings_perm _).mem_iff.mp hn
    exact (List.mem_filter.mp this).1
  · have := (sortStrings_perm _).mem_iff.mp hn
    exact (List.mem_filter.mp this).1

/-- A loop whose body never panics runs to completion. -/
theorem mapOpt_isSome {α β : Type} (f : α → Option β) (l : List α)
    (h : ∀ x ∈ l, (f x).isSome = true) : (mapOpt f l).isSome = true := by
  induction l with
  | nil => rfl
  | cons x xs ih =>
    have hx := h x (List.mem_cons_self _ _)
    obtain ⟨y, hy⟩ := Option.isSome_iff_exists.mp hx
    have hxs := ih (fun z hz => h z (List.mem_cons_of_mem _ hz))
    obtain ⟨ys, hys⟩ := Option.isSome_iff_exists.mp hxs
    simp [mapOpt, hy, hys]

/-- Normalizing one tool does not panic when all its property values are
JSON objects. -/
theorem normalizeTool_isSome (t : RawTool)
    (hobj : ∀ p ∈ t.InputSchema.Properties, p.2.isObj = true) :
    (normalizeTool t).isSome = true := by
  have hargs := mapOpt_isSome
    (normalizeArg t.InputSchema.Properties t.InputSchema.Required t.Description)
    (argOrder t.InputSchema.Properties t.InputSchema.Required)
    (fun n hn => normalizeArg_isSome _ _ _ _ hobj (argOrder_subset _ _ n hn))
  obtain ⟨args, hargs2⟩ := Option.isSome_iff_exists.mp hargs
  simp [normalizeTool, hargs2]

/-- C10: the tool normalization is total under the precondition that every
input-schema property value is a JSON object — for every raw tool list
satisfying it, normalization returns a result without panicking; and the
precondition is load-bearing: a raw tool with a non-object property value
makes the unchecked type assertion panic (the normalization aborts with no
result). -/
theorem c10_normalization_totality :
    (∀ tools : List RawTool,
      (∀ t ∈ tools, ∀ p ∈ t.InputSchema.Properties, p.2.isObj = true) →
      (Tools tools).isSome = true) ∧
    Tools
      [{ Name := "t".data, Description := [],
         InputSchema :=
           { Properties := [("x".data, JValue.str "oops".data)], Required := [] },
         Annotations := RawHints.zero }] = none := by
  constructor
  · intro tools hobj
    exact mapOpt_isSome normalizeTool (sortTools tools)
      (fun t ht => normalizeTool_isSome t (hobj t ((sortTools_perm tools).mem_iff.mp ht)))
  · rfl

/-- C10 witness: a one-tool list whose single property value is an object
normalizes without panicking. -/
theorem c10_normalization_totality_witness :
    (Tools
      [{ Name := "t".data, Description := [],
         InputSchema :=
           { Properties := [("x".data, JValue.obj [])], Required := [] },
         Annotations := RawHints.zero }]).isSome = true :=
  c10_normalization_totality.1
    [{ Name := "t".data, Description := [],
       InputSchema :=
         { Properties := [("x".data, JValue.obj [])], Required := [] },
       Annotations := RawHints.zero }]
    (by decide)

end McpReg
